import Mathlib

/-!
Verification of the benchmark measurement-and-aggregation protocol of
`model_benchmark.py`, together with one property of the ScopeFlow model
(`ptlflow/models/scopeflow/irr_pwc_v2.py`).

The Python code is shallowly embedded: external effects (wall-clock timer
readings, pynvml device-memory snapshots, model construction, the torch
profiler) are supplied by explicit environment structures, while the control
flow, accumulation and reduction logic of the benchmark is translated
directly from the source.  Python `float` values are modelled by `ℚ`
(exact arithmetic), byte counts by `ℤ`, and CLI integers by `ℤ`
(with `Int.toNat` wherever Python's `range`/list-repetition clamp negative
counts to zero).
-/

namespace ModelBenchmark

/-- Configuration of one benchmark run (the CLI arguments of
`model_benchmark.py` that the measurement logic reads).  `model_name` stands
for `args.model.class_path.split(".")[-1]`, used when neither `--all` nor
`--select` is given. -/
structure BenchArgs where
  all : Bool
  select : Option (List String)
  exclude : Option (List String)
  model_name : String
  input_size : List Int
  num_trials : Int
  num_samples : Int
  sleep_interval : ℚ
  batch_size : Int
  datatypes : List String
  final_speed_mode : String
  final_memory_mode : String

/-- Wall-clock readings consumed by one repetition of the inner timing loop:
`elapsed i` is the value of `timer.total()` measured around the `i`-th
forward call (only read for `i > 0`; call `0` is discarded). -/
structure TimeEnv where
  elapsed : Nat → ℚ

/-- Source `estimate_inference_time` (model_benchmark.py lines 411-456): loop
`for i in range(args.num_samples + 1)`, discard the first call, and append
`timer.total() / args.batch_size` for each later call.  The forward call
itself is an external effect; only the recorded times are modelled. -/
def estimate_inference_time (args : BenchArgs) (env : TimeEnv) : List ℚ :=
  (List.range (args.num_samples + 1).toNat).foldl
    (fun time_vals i =>
      if 0 < i then time_vals ++ [env.elapsed i / (args.batch_size : ℚ)]
      else time_vals)
    []

/-- The pynvml device-memory probe, present exactly when `pynvml` is
importable and a device handle was obtained.  `device_initial_used` is the
snapshot taken once before the sweep (lines 244-246); `preSnap irep` is the
snapshot taken at the start of repetition `irep`, just before model
construction (lines 264-266); `postSnap irep` is the snapshot taken after
the repetition's timing loop (lines 280-282). -/
structure MemProbe where
  device_initial_used : Int
  preSnap : Nat → Int
  postSnap : Nat → Int

/-- Remaining external inputs of one trial: the wall-clock readings of each
repetition's timing loop and the parameter count of the freshly constructed
model (`count_parameters`, line 273). -/
structure TrialEnv where
  timeEnv : Nat → TimeEnv
  params : Nat → Int

/-- The mutable locals of the repetition loop (lines 258-260, 273). -/
structure TrialState where
  all_times : List ℚ
  all_memories : List Int
  first_memory_used : Int
  model_params : Int
deriving DecidableEq

/-- One iteration of `for irep in range(args.num_trials + 1)`
(model_benchmark.py lines 261-292).  `torch.cuda.empty_cache()` and
`time.sleep` are pure effects with no influence on the recorded data.  In
the source the pre-snapshot is guarded by
`pynvml is not None and device_handle is not None` and the post-snapshot by
`device_handle is not None`; a handle exists only when pynvml was imported,
so both guards reduce to "the probe is present". -/
def runRepetition (args : BenchArgs) (probe : Option MemProbe) (env : TrialEnv)
    (irep : Nat) (st : TrialState) : TrialState :=
  let repetition_times := estimate_inference_time args (env.timeEnv irep)
  let st := { st with model_params := env.params irep }
  let st :=
    if 0 < irep then { st with all_times := st.all_times ++ repetition_times }
    else st
  match probe with
  | none => st
  | some p =>
    let model_memory_used := p.postSnap irep - p.preSnap irep
    if 0 < irep then
      { st with all_memories :=
          st.all_memories ++ List.replicate args.num_samples.toNat model_memory_used }
    else
      { st with first_memory_used := p.postSnap irep - p.device_initial_used }

/-- Repetitions `0, 1, ..., n-1` of the trial loop, applied in order. -/
def runTrialAux (args : BenchArgs) (probe : Option MemProbe) (env : TrialEnv) :
    Nat → TrialState
  | 0 => ⟨[], [], 0, 0⟩
  | n + 1 => runRepetition args probe env n (runTrialAux args probe env n)

/-- The whole repetition loop `for irep in range(args.num_trials + 1)` of one
trial (lines 258-292). -/
def runTrial (args : BenchArgs) (probe : Option MemProbe) (env : TrialEnv) :
    TrialState :=
  runTrialAux args probe env (args.num_trials + 1).toNat

/-- The sorted-statistics record built at lines 316-323 (for times) and
327-335 (for memories): the five reductions over a sample list. -/
structure Reductions where
  avg : ℚ
  median : ℚ
  perc1 : ℚ
  perc5 : ℚ
  perc10 : ℚ
deriving DecidableEq

/-- Lines 316-323 / 327-334: sort the samples ascending (`list.sort()`; any
stable ascending sort — here insertion sort — models it), then build the
statistics dictionary.  Indexing out of range (`IndexError`, possible only
for an empty list since every index is `< length` otherwise) makes the
whole construction fail, which the sweep's `try` swallows; `none` models
that.  `avg` is `np.array(...).mean()`, the arithmetic mean. -/
def computeReductions (samples : List ℚ) : Option Reductions :=
  let l := samples.insertionSort (· ≤ ·)
  match l.get? (l.length / 2), l.get? (l.length / 100),
      l.get? (l.length / 20), l.get? (l.length / 10) with
  | some med, some p1, some p5, some p10 =>
      some ⟨l.sum / (l.length : ℚ), med, p1, p5, p10⟩
  | _, _, _, _ => none

/-- Lookup `final_times[args.final_speed_mode]` (line 354): dictionary lookup, with
`none` for a key outside the five speed modes (`KeyError`). -/
def selectFinalTime (r : Reductions) : String → Option ℚ
  | "avg" => some r.avg
  | "median" => some r.median
  | "perc1" => some r.perc1
  | "perc5" => some r.perc5
  | "perc10" => some r.perc10
  | _ => none

/-- Lookup `final_memories[args.final_memory_mode]` (line 355): the same five
reductions plus the `"first"` entry holding `first_memory_used`
(line 334). -/
def selectFinalMemory (r : Reductions) (first_memory_used : ℚ) :
    String → Option ℚ
  | "first" => some first_memory_used
  | m => selectFinalTime r m

/-- A cell value of the results table. -/
inductive Value where
  | str : String → Value
  | num : ℚ → Value
  | int : Int → Value
deriving DecidableEq

/-- Dictionary `new_df_dict`: an insertion-ordered dictionary from column legends to
cell values (the `[v]` singleton-list wrapping of the source is a pandas
construction detail and is dropped). -/
abbrev RowDict := List (String × Value)

/-- Python dictionary lookup on an insertion-ordered association list. -/
def dictGet (d : RowDict) (k : String) : Option Value :=
  match d with
  | [] => none
  | (k', v) :: rest => if k' = k then some v else dictGet rest k

/-- Inserting one key into a Python dictionary: replace the value in place
if the key exists, else append the pair at the end. -/
def updateOne (d : RowDict) (kv : String × Value) : RowDict :=
  if d.any (fun p => p.1 == kv.1) then
    d.map (fun p => if p.1 = kv.1 then kv else p)
  else d ++ [kv]

/-- Python `dict.update(...)` with an insertion-ordered batch of pairs. -/
def dictUpdate (d : RowDict) (kvs : List (String × Value)) : RowDict :=
  kvs.foldl updateOne d

/-- Constant `NUM_COMMON_COLUMNS` (line 41). -/
def NUM_COMMON_COLUMNS : Nat := 6

/-- Legend `TABLE_LEGENDS[6]-<dtype>`, the time column legend (line 214). -/
def timeLegend (dt : String) : String := "Time(ms)-" ++ dt

/-- Legend `TABLE_LEGENDS[7]-<dtype>`, the memory column legend (line 215). -/
def memLegend (dt : String) : String := "Memory(GB)-" ++ dt

/-- The six descriptive column legends (`TABLE_LEGENDS[:6]`, lines 42-53). -/
def commonColumns : List String :=
  ["Model", "Params", "FLOPs", "InputH", "InputW", "InputPx"]

/-- Columns `df.columns`: the six common legends followed by a time and a memory
column per datatype, in configured datatype order (lines 205-215). -/
def dfColumns (datatypes : List String) : List String :=
  commonColumns ++ datatypes.flatMap (fun dt => [timeLegend dt, memLegend dt])

/-- A warning logged by the sweep's `except` handler (lines 370-376),
carrying the model name, the datatype and the exception message. -/
structure Warning where
  mname : String
  dtype : String
  err : String
deriving DecidableEq

/-- One attempted trial: the sweep entered the `try` block for this
(input size, model, datatype) combination. -/
structure TrialEvent where
  isz : Int × Int
  mname : String
  dtype : String
deriving DecidableEq

/-- Shape of a synthetic `torch.rand` input tensor
(batch, image pair, channels, height, width). -/
structure InputShape where
  batch : Int
  images : Int
  channels : Int
  h : Int
  w : Int
deriving DecidableEq

/-- The synthetic input built for FLOP counting (lines 297-305): the batch
dimension is the literal `1`, not `args.batch_size`. -/
def flops_input_shape (args : BenchArgs) (isz : Int × Int) : InputShape :=
  ⟨1, 2, 3, isz.1, isz.2⟩

/-- The synthetic input built inside the timing loop (lines 435-443): the
batch dimension is `args.batch_size`. -/
def timing_input_shape (args : BenchArgs) (isz : Int × Int) : InputShape :=
  ⟨args.batch_size, 2, 3, isz.1, isz.2⟩

/-- Source `count_flops` (lines 395-408): sum the per-operator FLOP counts reported
by the profiler's `key_averages()` over one forward pass. -/
def count_flops (key_averages : List Int) : Int :=
  key_averages.foldl (fun flops k => flops + k) 0

/-- External effects of the sweep.  `trial` is the whole repetition loop for
one (input size, model, datatype): it either raises (model construction,
unsupported datatype, OOM, ...) or yields the recorded `TrialState`
(cf. `runTrial`).  `flopsOps` is the profiler run of lines 294-314 on a
fresh model: it either raises or yields the per-operator FLOP counts for
the given input shape. -/
structure SweepEnv where
  trial : Int × Int → String → String → Except String TrialState
  flopsOps : InputShape → String → String → Except String (List Int)

/-- The FLOP estimate obtained inside one trial (lines 294-314):
`count_flops(model, inputs)` with `inputs["images"] = torch.rand(1, 2, 3,
input_size[0], input_size[1])`. -/
def trial_flops (args : BenchArgs) (env : SweepEnv) (isz : Int × Int)
    (mname dt : String) : Except String Int :=
  Except.map count_flops (env.flopsOps (flops_input_shape args isz) mname dt)

/-- Constant `1024 ** 3`, the bytes-per-GiB divisor of line 355. -/
def GB : ℚ := 1024 ^ 3

/-- The body of the `try` block for one datatype (lines 257-369), from the
repetition loop to the `new_df_dict` updates, with the dictionary threaded
through.  Any failure short-circuits to `Except.error`, which the caller's
`except` turns into a logged warning.  (One unreachable divergence: in the
source a `KeyError` on the reduction-mode lookup would fire after the
common-column `dict.update` already happened; the CLI restricts both modes
to valid keys, so that path cannot be taken.) -/
def trialCells (args : BenchArgs) (env : SweepEnv) (isz : Int × Int)
    (mname : String) (idtype : Nat) (dt : String) (dict : RowDict) :
    Except String RowDict :=
  match env.trial isz mname dt with
  | .error e => .error e
  | .ok m =>
    match trial_flops args env isz mname dt with
    | .error e => .error e
    | .ok flops =>
      match computeReductions m.all_times with
      | none => .error "IndexError"
      | some final_times =>
        match computeReductions (List.map (fun x : Int => (x : ℚ))
            (if m.all_memories.isEmpty then [0] else m.all_memories)) with
        | none => .error "IndexError"
        | some final_memories =>
          match selectFinalTime final_times args.final_speed_mode with
          | none => .error "KeyError"
          | some ftime =>
            match selectFinalMemory final_memories
                ((m.first_memory_used : ℚ)) args.final_memory_mode with
            | none => .error "KeyError"
            | some fmem =>
              .ok (dictUpdate
                (if dict.length = 0 then
                  dictUpdate dict
                    (((dfColumns args.datatypes).take NUM_COMMON_COLUMNS).zip
                      [Value.str mname,
                       Value.num ((m.model_params : ℚ) / 1000000),
                       Value.num ((flops : ℚ) / 1000000000),
                       Value.int isz.1,
                       Value.int isz.2,
                       Value.int (isz.1 * isz.2)])
                 else dict)
                ((((dfColumns args.datatypes).drop
                    (NUM_COMMON_COLUMNS + 2 * idtype)).take 2).zip
                  [Value.num (ftime * 1000), Value.num (fmem / GB)]))

/-- One iteration of `for idtype, dtype_str in enumerate(args.datatypes)`
(lines 256-376): run the `try` body and either take its dictionary or log
a warning and keep the old one. -/
def processDtype (args : BenchArgs) (env : SweepEnv) (isz : Int × Int)
    (mname : String) (acc : RowDict × List Warning) (p : Nat × String) :
    RowDict × List Warning :=
  match trialCells args env isz mname p.1 p.2 acc.1 with
  | .ok d => (d, acc.2)
  | .error e => (acc.1, acc.2 ++ [⟨mname, p.2, e⟩])

/-- The accumulated output of (part of) the sweep: emitted rows, logged
warnings, and the attempted-trial events in order. -/
structure SweepResult where
  rows : List RowDict
  warns : List Warning
  events : List TrialEvent
deriving DecidableEq

/-- The per-model body of the sweep (lines 251-391): skip excluded models
outright; otherwise run every datatype and, if at least one succeeded
(`len(new_df_dict) > 0`), emit the assembled row (the subsequent rounding,
CSV write and plot call do not change the row's cells). -/
def processModel (args : BenchArgs) (env : SweepEnv) (excl : List String)
    (isz : Int × Int) (mname : String) : SweepResult :=
  if mname ∈ excl then ⟨[], [], []⟩
  else
    let folded := (args.datatypes.enum).foldl (processDtype args env isz mname) ([], [])
    ⟨if 0 < folded.1.length then [folded.1] else [],
     folded.2,
     args.datatypes.map (fun dt => ⟨isz, mname, dt⟩)⟩

/-- Model-name selection (lines 222-233): all registered names in `--all`
mode; the `--select` list when non-empty, after asserting every name is
registered (`none` = `AssertionError`); otherwise the single configured
model. -/
def modelNamesOf (args : BenchArgs) (available : List String) :
    Option (List String) :=
  if args.all then some available
  else
    match args.select with
    | some sel =>
        if 0 < sel.length then
          if sel.all (fun n => available.contains n) then some sel else none
        else some [args.model_name]
    | none => some [args.model_name]

/-- Exclusion-list validation (lines 235-240): `None` becomes the empty
list; every listed name must be registered (`none` = `AssertionError`). -/
def excludeOf (args : BenchArgs) (available : List String) :
    Option (List String) :=
  match args.exclude with
  | none => some []
  | some ex => if ex.all (fun n => available.contains n) then some ex else none

/-- Slicing loop `for isize in range(0, len(args.input_size), 2)` with
`input_size = args.input_size[isize:isize+2]` (lines 248-249): consume the
flat list two values at a time.  The sweep only applies this after the
even-length assertion, where every slice is a full (height, width) pair. -/
def pairUp : List Int → List (Int × Int)
  | a :: b :: rest => (a, b) :: pairUp rest
  | _ => []

/-- The whole sweep of `benchmark` (lines 192-392): validate the model
selection, the exclusion list and the input-size list (`none` =
`AssertionError` before any trial runs), then iterate input-size pairs ×
model names, accumulating rows, warnings and attempted trials. -/
def benchmarkRun (args : BenchArgs) (available : List String)
    (env : SweepEnv) : Option SweepResult :=
  (modelNamesOf args available).bind (fun names =>
    (excludeOf args available).bind (fun excl =>
      if args.input_size.length % 2 = 0 then
        some ((pairUp args.input_size).foldl
          (fun acc isz =>
            names.foldl
              (fun acc2 mname =>
                let r := processModel args env excl isz mname
                ⟨acc2.rows ++ r.rows, acc2.warns ++ r.warns,
                 acc2.events ++ r.events⟩)
              acc)
          ⟨[], [], []⟩)
      else none))

/-- One row of the table handed to `save_plot`: a cell per column, `none`
for a missing value (NaN). -/
abbrev PlotRow := List (Option Value)

/-- Step `df_tmp = df_tmp.dropna()` in `save_plot` (lines 493-494): `dropna()`
without a column subset keeps exactly the rows with no missing value in
ANY column. -/
def save_plot_kept_rows (df : List PlotRow) : List PlotRow :=
  df.filter (fun r => r.all (fun c => c.isSome))

/-- Modelled from the spec: the spec's row-exclusion rule "drop rows with
missing values in the selected columns" — keep a row when both selected
axis cells are present, regardless of other columns.  This definition
exists only to be compared with `save_plot_kept_rows`, which is what the
source does. -/
def spec_plot_kept_rows (xIdx yIdx : Nat) (df : List PlotRow) : List PlotRow :=
  df.filter (fun r => (r.getD xIdx none).isSome && (r.getD yIdx none).isSome)

/-- A tensor or module as the datatype/device logic sees it: an opaque
payload plus the flags toggled by `.cuda()` and `.half()`. -/
structure Tensor where
  raw : Nat
  on_cuda : Bool
  fp16 : Bool
deriving DecidableEq

/-- Effect of `.cuda()`. -/
def tensor_cuda (t : Tensor) : Tensor := { t with on_cuda := true }

/-- Effect of `.half()`. -/
def tensor_half (t : Tensor) : Tensor := { t with fp16 := true }

/-- Lines 269-272: the model is moved to the device and cast to fp16 only
under `torch.cuda.is_available()`. -/
def prepare_model (cuda_available : Bool) (dt : String) (m : Tensor) : Tensor :=
  if cuda_available then
    let m := tensor_cuda m
    if dt = "fp16" then tensor_half m else m
  else m

/-- Lines 444-447: the input tensor is moved to the device and cast to fp16
only under `torch.cuda.is_available()`. -/
def prepare_input (cuda_available : Bool) (dt : String) (t : Tensor) : Tensor :=
  if cuda_available then
    let t := tensor_cuda t
    if dt = "fp16" then tensor_half t else t
  else t

/-- Payload sources for the forward-call trace: the freshly constructed
model of repetition `irep` and the freshly drawn random input of call `i`
within repetition `irep`. -/
structure ForwardEnv where
  raw_model : Nat → Nat
  raw_input : Nat → Nat → Nat

/-- The forward calls `model(inputs)` executed by one repetition's timing
loop (lines 434-452): `num_samples + 1` calls, each on the prepared model
and a freshly prepared input. -/
def repetition_forward_calls (args : BenchArgs) (fenv : ForwardEnv)
    (cuda_available : Bool) (dt : String) (irep : Nat) :
    List (Tensor × Tensor) :=
  (List.range (args.num_samples + 1).toNat).map fun i =>
    (prepare_model cuda_available dt ⟨fenv.raw_model irep, false, false⟩,
     prepare_input cuda_available dt ⟨fenv.raw_input irep i, false, false⟩)

/-- The full sequence of timed forward calls of one trial: all repetitions'
inner loops in order. -/
def trial_forward_calls (args : BenchArgs) (fenv : ForwardEnv)
    (cuda_available : Bool) (dt : String) : List (Tensor × Tensor) :=
  (List.range (args.num_trials + 1).toNat).flatMap
    (repetition_forward_calls args fenv cuda_available dt)

/-- A minimal single-model configuration used to instantiate theorems at
concrete inputs. -/
def exArgs : BenchArgs :=
  ⟨false, none, none, "x", [100, 200], 1, 1, 0, 1, ["fp32"], "median", "first"⟩

/-- A concrete memory probe whose run-initial snapshot (0) differs from the
pre-repetition snapshots (5); the post-repetition snapshots read 12. -/
def exProbe : MemProbe := ⟨0, fun _ => 5, fun _ => 12⟩

/-- A concrete trial environment with zero timer readings and parameter
count. -/
def exTrialEnv : TrialEnv := ⟨fun _ => ⟨fun _ => 0⟩, fun _ => 0⟩

/-- A concrete sorted sample list of length 10. -/
def exSamples : List ℚ := [0, 1, 2, 3, 4, 5, 6, 7, 8, 9]

/-- A sweep environment whose trials fail for every datatype except fp32;
the fp32 trial records one latency sample, one memory sample and a
first-touch value of 7. -/
def exEnvSplit : SweepEnv :=
  ⟨fun _ _ dt => if dt = "fp32" then .ok ⟨[2], [3], 7, 1000⟩ else .error "E16",
   fun _ _ dt => if dt = "fp32" then .ok [5, 6] else .error "E16"⟩

/-- A two-datatype configuration (fp16 then fp32). -/
def exArgsBoth : BenchArgs :=
  ⟨false, none, none, "x", [100, 200], 1, 1, 0, 1, ["fp16", "fp32"], "median", "first"⟩

/-- A select-mode configuration whose selection and exclusion lists share
the model name dummy_a. -/
def exArgsSelect : BenchArgs :=
  ⟨false, some ["dummy_a", "dummy_b"], some ["dummy_a"], "x", [100, 200], 0, 1, 0, 1,
   ["fp32"], "median", "first"⟩

/-- A sweep environment where every trial raises. -/
def exEnvErr : SweepEnv := ⟨fun _ _ _ => .error "E", fun _ _ _ => .error "E"⟩

/-- A configuration with an odd-length input-size list. -/
def exArgsOdd : BenchArgs :=
  ⟨false, none, none, "x", [100, 200, 300], 1, 1, 0, 1, ["fp32"], "median", "first"⟩

/-- A configuration with the four-value input-size list of the claim. -/
def exArgsFour : BenchArgs :=
  ⟨false, none, none, "x", [100, 200, 300, 400], 1, 1, 0, 1, ["fp32"], "median", "first"⟩

/-- The sweep outcome of `exArgsFour` under the all-failing environment. -/
def exResFour : SweepResult :=
  ⟨[], [⟨"x", "fp32", "E"⟩, ⟨"x", "fp32", "E"⟩],
   [⟨(100, 200), "x", "fp32"⟩, ⟨(300, 400), "x", "fp32"⟩]⟩

/-- The sweep outcome of `exArgsSelect` under the all-failing environment:
the excluded model dummy_a produces nothing. -/
def exResSelect : SweepResult :=
  ⟨[], [⟨"dummy_b", "fp32", "E"⟩], [⟨(100, 200), "dummy_b", "fp32"⟩]⟩

end ModelBenchmark

namespace ScopeFlowModel

/-- The submodules and tensor operations `_refine_occ` of
`ptlflow/models/scopeflow/irr_pwc_v2.py` uses, kept abstract: `self.warping_layer(x, flow, height_im, width_im, div_flow)`, the
`self.refine_occ` refinement module, `.detach()` and tensor subtraction. -/
structure ScopeFlowRefinement (V : Type) where
  warping_layer : V → V → Int → Int → ℚ → V
  refine_occ : V → V → V → V
  detach : V → V
  sub : V → V → V

/-- Method `_refine_occ` (irr_pwc_v2.py lines 546-566), translated verbatim: note
the return statement `return occ_f, occ_cont_f, occ_b, occ_cont_f`. -/
def refine_occ_method {V : Type} (M : ScopeFlowRefinement V) (div_flow : ℚ)
    (x1_1by1 x2_1by1 flow_f flow_b occ_cont_f occ_cont_b : V)
    (height_im width_im : Int) : V × V × V × V :=
  let x2_1by1_warp := M.warping_layer x2_1by1 flow_f height_im width_im div_flow
  let x1_1by1_warp := M.warping_layer x1_1by1 flow_b height_im width_im div_flow
  let occ_f := M.refine_occ (M.detach occ_cont_f) x1_1by1 (M.sub x1_1by1 x2_1by1_warp)
  let occ_b := M.refine_occ (M.detach occ_cont_b) x2_1by1 (M.sub x2_1by1 x1_1by1_warp)
  (occ_f, occ_cont_f, occ_b, occ_cont_f)

end ScopeFlowModel

namespace ModelBenchmark

theorem estimate_inference_time_length (args : BenchArgs) (env : TimeEnv) :
    (estimate_inference_time args env).length = args.num_samples.toNat := by
  have key : ∀ (n : Nat) (acc : List ℚ),
      ((List.range n).foldl
        (fun time_vals i =>
          if 0 < i then time_vals ++ [env.elapsed i / (args.batch_size : ℚ)]
          else time_vals) acc).length = acc.length + (n - 1) := by
    intro n
    induction n with
    | zero => intro acc; simp
    | succ m ih =>
      intro acc
      rw [List.range_succ, List.foldl_append]
      simp only [List.foldl_cons, List.foldl_nil]
      by_cases hm : 0 < m
      · rw [if_pos hm, List.length_append, ih]
        simp only [List.length_singleton]
        omega
      · have hm0 : m = 0 := by omega
        subst hm0
        simp [ih]
  unfold estimate_inference_time
  rw [key]
  simp only [List.length_nil]
  omega

theorem runTrialAux_times_length (args : BenchArgs) (probe : Option MemProbe)
    (env : TrialEnv) (n : Nat) :
    (runTrialAux args probe env n).all_times.length =
      (n - 1) * args.num_samples.toNat := by
  induction n with
  | zero => simp [runTrialAux]
  | succ m ih =>
    unfold runTrialAux runRepetition
    by_cases hm : 0 < m
    · obtain ⟨m', rfl⟩ : ∃ m', m = m' + 1 := ⟨m - 1, by omega⟩
      cases probe with
      | none =>
        simp only [if_pos hm, List.length_append, ih,
          estimate_inference_time_length, Nat.add_sub_cancel, Nat.succ_mul]
      | some p =>
        simp only [if_pos hm, List.length_append, ih,
          estimate_inference_time_length, Nat.add_sub_cancel, Nat.succ_mul]
    · have hm0 : m = 0 := by omega
      subst hm0
      cases probe <;> simp [ih, runTrialAux]

theorem runTrialAux_memories_length (args : BenchArgs) (p : MemProbe)
    (env : TrialEnv) (n : Nat) :
    (runTrialAux args (some p) env n).all_memories.length =
      (n - 1) * args.num_samples.toNat := by
  induction n with
  | zero => simp [runTrialAux]
  | succ m ih =>
    unfold runTrialAux runRepetition
    by_cases hm : 0 < m
    · obtain ⟨m', rfl⟩ : ∃ m', m = m' + 1 := ⟨m - 1, by omega⟩
      simp only [if_pos hm, List.length_append, ih, List.length_replicate,
        Nat.add_sub_cancel, Nat.succ_mul]
    · have hm0 : m = 0 := by omega
      subst hm0
      simp [ih, runTrialAux]

/-- On every repetition with index `> 0` the `first_memory_used` slot is left
unchanged; only repetition `0` writes it. -/
theorem runTrialAux_first_memory (args : BenchArgs) (p : MemProbe)
    (env : TrialEnv) (n : Nat) (hn : 0 < n) :
    (runTrialAux args (some p) env n).first_memory_used =
      p.postSnap 0 - p.device_initial_used := by
  induction n with
  | zero => omega
  | succ m ih =>
    unfold runTrialAux runRepetition
    by_cases hm : 0 < m
    · simp only [if_pos hm]
      exact ih hm
    · have hm0 : m = 0 := by omega
      subst hm0
      simp [runTrialAux]

theorem count_flops_eq_sum (l : List Int) : count_flops l = l.sum := by
  have key : ∀ (l : List Int) (a : Int), l.foldl (fun x k => x + k) a = a + l.sum := by
    intro l
    induction l with
    | nil => intro a; simp
    | cons x xs ih => intro a; simp [ih, List.sum_cons]; ring
  simpa [count_flops] using key l 0

theorem computeReductions_spec (samples : List ℚ) (h : samples ≠ []) :
    ∃ r : Reductions, computeReductions samples = some r
      ∧ (samples.insertionSort (· ≤ ·)).get? (samples.length / 2) = some r.median
      ∧ (samples.insertionSort (· ≤ ·)).get? (samples.length / 100) = some r.perc1
      ∧ (samples.insertionSort (· ≤ ·)).get? (samples.length / 20) = some r.perc5
      ∧ (samples.insertionSort (· ≤ ·)).get? (samples.length / 10) = some r.perc10
      ∧ r.avg = samples.sum / (samples.length : ℚ) := by
  have hlen : (samples.insertionSort (· ≤ ·)).length = samples.length :=
    List.length_insertionSort _ samples
  have hpos : 0 < (samples.insertionSort (· ≤ ·)).length := by
    rw [hlen]
    exact List.length_pos.mpr h
  have h2 := Nat.div_lt_self hpos (show 1 < 2 by norm_num)
  have h100 := Nat.div_lt_self hpos (show 1 < 100 by norm_num)
  have h20 := Nat.div_lt_self hpos (show 1 < 20 by norm_num)
  have h10 := Nat.div_lt_self hpos (show 1 < 10 by norm_num)
  refine ⟨⟨(samples.insertionSort (· ≤ ·)).sum /
      (((samples.insertionSort (· ≤ ·)).length : ℕ) : ℚ),
    (samples.insertionSort (· ≤ ·)).get ⟨_, h2⟩,
    (samples.insertionSort (· ≤ ·)).get ⟨_, h100⟩,
    (samples.insertionSort (· ≤ ·)).get ⟨_, h20⟩,
    (samples.insertionSort (· ≤ ·)).get ⟨_, h10⟩⟩, ?_, ?_, ?_, ?_, ?_, ?_⟩
  · simp only [computeReductions]
    rw [List.get?_eq_get h2, List.get?_eq_get h100, List.get?_eq_get h20,
      List.get?_eq_get h10]
  · rw [← hlen]
    exact List.get?_eq_get h2
  · rw [← hlen]
    exact List.get?_eq_get h100
  · rw [← hlen]
    exact List.get?_eq_get h20
  · rw [← hlen]
    exact List.get?_eq_get h10
  · show (samples.insertionSort (· ≤ ·)).sum / _ = _
    rw [hlen, (List.perm_insertionSort _ samples).sum_eq]

theorem selectFinalTime_some (r : Reductions) (mode : String)
    (h : mode ∈ ["avg", "median", "perc1", "perc5", "perc10"]) :
    ∃ q, selectFinalTime r mode = some q := by
  simp only [List.mem_cons, List.not_mem_nil, or_false] at h
  rcases h with h | h | h | h | h <;> subst h <;> exact ⟨_, rfl⟩

theorem selectFinalMemory_some (r : Reductions) (first_val : ℚ) (mode : String)
    (h : mode ∈ ["avg", "median", "perc1", "perc5", "perc10", "first"]) :
    ∃ q, selectFinalMemory r first_val mode = some q := by
  simp only [List.mem_cons, List.not_mem_nil, or_false] at h
  rcases h with h | h | h | h | h | h <;> subst h <;> exact ⟨_, rfl⟩

/-- C1 counterexample: with a probe whose pre-repetition snapshot (5)
differs from the run-initial snapshot (0), the stored first-touch value
(12 − 0 = 12) is not the post-minus-pre-repetition delta (12 − 5 = 7):
the claim's equality fails on the code. -/
theorem claim_C1_counterexample :
    (runTrial exArgs (some exProbe) exTrialEnv).first_memory_used ≠
      exProbe.postSnap 0 - exProbe.preSnap 0 := by decide

/-- C1 (amended): when a memory probe is available, the first-touch memory
value stored on the warm-up repetition equals the device-memory snapshot
taken after repetition 0 minus the RUN-INITIAL snapshot taken once before
the sweep began (`device_initial_used`), not the pre-repetition
snapshot. -/
theorem claim_C1_theorem (args : BenchArgs) (p : MemProbe) (env : TrialEnv)
    (h : 0 ≤ args.num_trials) :
    (runTrial args (some p) env).first_memory_used =
      p.postSnap 0 - p.device_initial_used := by
  unfold runTrial
  exact runTrialAux_first_memory args p env _ (by omega)

theorem claim_C1_witness :
    (runTrial exArgs (some exProbe) exTrialEnv).first_memory_used =
      exProbe.postSnap 0 - exProbe.device_initial_used :=
  claim_C1_theorem exArgs exProbe exTrialEnv (by decide)

/-- C2: on an already-sorted ascending sample sequence of length `L ≥ 1`,
the reduction dictionary selects the element at index `L / 2` for median,
`L / 100` for perc1, `L / 20` for perc5, `L / 10` for perc10, and the
arithmetic mean of the whole sequence for avg. -/
theorem claim_C2_theorem (samples : List ℚ) (hs : samples.Sorted (· ≤ ·))
    (hne : samples ≠ []) :
    ∃ r : Reductions, computeReductions samples = some r
      ∧ samples.get? (samples.length / 2) = some r.median
      ∧ samples.get? (samples.length / 100) = some r.perc1
      ∧ samples.get? (samples.length / 20) = some r.perc5
      ∧ samples.get? (samples.length / 10) = some r.perc10
      ∧ r.avg = samples.sum / (samples.length : ℚ) := by
  obtain ⟨r, h0, h1, h2, h3, h4, h5⟩ := computeReductions_spec samples hne
  rw [hs.insertionSort_eq] at h1 h2 h3 h4
  exact ⟨r, h0, h1, h2, h3, h4, h5⟩

theorem claim_C2_witness :
    ∃ r : Reductions, computeReductions exSamples = some r
      ∧ exSamples.get? (exSamples.length / 2) = some r.median
      ∧ exSamples.get? (exSamples.length / 100) = some r.perc1
      ∧ exSamples.get? (exSamples.length / 20) = some r.perc5
      ∧ exSamples.get? (exSamples.length / 10) = some r.perc10
      ∧ r.avg = exSamples.sum / (exSamples.length : ℚ) :=
  claim_C2_theorem exSamples (by decide) (by decide)

/-- C3: a completed trial records exactly `num_trials * num_samples` latency
samples (the warm-up repetition 0 is discarded and each inner loop discards
its first forward call, keeping `num_samples` of its `num_samples + 1`
calls), and with a memory probe present the memory sample sequence has the
same length, the single per-repetition delta being replicated
`num_samples` times for every non-warm-up repetition. -/
theorem claim_C3_theorem (args : BenchArgs) (p : MemProbe) (env : TrialEnv) :
    (runTrial args (some p) env).all_times.length =
        args.num_trials.toNat * args.num_samples.toNat
    ∧ (runTrial args (some p) env).all_memories.length =
        (runTrial args (some p) env).all_times.length
    ∧ ∀ tenv : TimeEnv,
        (estimate_inference_time args tenv).length = args.num_samples.toNat := by
  have ht := runTrialAux_times_length args (some p) env (args.num_trials + 1).toNat
  have hm := runTrialAux_memories_length args p env (args.num_trials + 1).toNat
  have key : (args.num_trials + 1).toNat - 1 = args.num_trials.toNat := by omega
  refine ⟨?_, ?_, fun tenv => estimate_inference_time_length args tenv⟩
  · unfold runTrial
    rw [ht, key]
  · unfold runTrial
    rw [hm, ht]

/-- C6 counterexample: a row whose only missing value sits in a non-axis
column (index 2) is excluded by `save_plot` even though both selected axis
cells (indices 0 and 1) are present — so the excluded rows are NOT exactly
the rows with missing values in the two selected axis columns. -/
theorem claim_C6_counterexample :
    save_plot_kept_rows [[some (Value.num 1), some (Value.num 2), none]] = []
    ∧ spec_plot_kept_rows 0 1 [[some (Value.num 1), some (Value.num 2), none]] =
        [[some (Value.num 1), some (Value.num 2), none]]
    ∧ save_plot_kept_rows [[some (Value.num 1), some (Value.num 2), none]] ≠
        spec_plot_kept_rows 0 1 [[some (Value.num 1), some (Value.num 2), none]] := by
  decide

/-- C6 (amended): the rows excluded from the scatter plot are exactly the
rows with a missing value in ANY column; consequently every kept row has
both selected axis values present, but a row whose missing values lie only
outside the selected axes is excluded as well. -/
theorem claim_C6_theorem (df : List PlotRow) (r : PlotRow) :
    (r ∈ save_plot_kept_rows df ↔ r ∈ df ∧ ∀ c ∈ r, c.isSome)
    ∧ (∀ xIdx yIdx : Nat, xIdx < r.length → yIdx < r.length →
        r ∈ save_plot_kept_rows df → r ∈ spec_plot_kept_rows xIdx yIdx df) := by
  constructor
  · unfold save_plot_kept_rows
    rw [List.mem_filter]
    simp [List.all_eq_true]
  · intro xIdx yIdx hx hy hr
    unfold save_plot_kept_rows at hr
    rw [List.mem_filter] at hr
    obtain ⟨hmem, hall⟩ := hr
    rw [List.all_eq_true] at hall
    unfold spec_plot_kept_rows
    rw [List.mem_filter]
    refine ⟨hmem, ?_⟩
    rw [List.getD_eq_get r none hx, List.getD_eq_get r none hy]
    rw [Bool.and_eq_true]
    exact ⟨hall _ (List.get_mem r _ _), hall _ (List.get_mem r _ _)⟩

theorem claim_C6_witness :
    [some (Value.num 1), some (Value.num 2)] ∈
        save_plot_kept_rows [[some (Value.num 1), some (Value.num 2)]]
    ∧ [some (Value.num 1), some (Value.num 2)] ∈
        spec_plot_kept_rows 0 1 [[some (Value.num 1), some (Value.num 2)]] :=
  ⟨(claim_C6_theorem [[some (Value.num 1), some (Value.num 2)]]
      [some (Value.num 1), some (Value.num 2)]).1.mpr (by decide),
   (claim_C6_theorem [[some (Value.num 1), some (Value.num 2)]]
      [some (Value.num 1), some (Value.num 2)]).2 0 1 (by decide) (by decide)
     ((claim_C6_theorem [[some (Value.num 1), some (Value.num 2)]]
        [some (Value.num 1), some (Value.num 2)]).1.mpr (by decide))⟩

/-- C7: the FLOP estimate of a trial comes from one forward pass on a
synthetic input of shape (1, 2, 3, height, width), summing the per-operator
FLOP counts; the value is identical for every configured batch size (the
timing loop's input, in contrast, uses `batch_size` as its batch
dimension). -/
theorem claim_C7_theorem (args : BenchArgs) (env : SweepEnv) (isz : Int × Int)
    (mname dt : String) (b : Int) :
    trial_flops { args with batch_size := b } env isz mname dt =
        trial_flops args env isz mname dt
    ∧ flops_input_shape args isz = ⟨1, 2, 3, isz.1, isz.2⟩
    ∧ (timing_input_shape args isz).batch = args.batch_size
    ∧ trial_flops args env isz mname dt =
        Except.map (fun ops => ops.sum)
          (env.flopsOps (flops_input_shape args isz) mname dt) := by
  refine ⟨rfl, rfl, rfl, ?_⟩
  unfold trial_flops
  cases env.flopsOps (flops_input_shape args isz) mname dt with
  | error e => rfl
  | ok ops => simp [Except.map, count_flops_eq_sum]

/-- C10: when CUDA is unavailable, neither the model nor the input tensors
are device-moved or precision-cast, so a trial configured with fp16
executes exactly the same sequence of forward calls as one configured with
fp32. -/
theorem claim_C10_theorem (args : BenchArgs) (fenv : ForwardEnv) :
    trial_forward_calls args fenv false "fp16" =
        trial_forward_calls args fenv false "fp32"
    ∧ (∀ m : Tensor, prepare_model false "fp16" m = m)
    ∧ (∀ t : Tensor, prepare_input false "fp16" t = t) :=
  ⟨rfl, fun _ => rfl, fun _ => rfl⟩

theorem dictGet_append_some (d₁ d₂ : RowDict) (k : String) (v : Value)
    (h : dictGet d₁ k = some v) : dictGet (d₁ ++ d₂) k = some v := by
  induction d₁ with
  | nil => exact absurd h (by simp [dictGet])
  | cons p rest ih =>
    obtain ⟨k', w⟩ := p
    by_cases hk : k' = k
    · simp only [dictGet, if_pos hk] at h ⊢
      exact h
    · simp only [dictGet, if_neg hk] at h ⊢
      exact ih h

theorem dictGet_append_none (d₁ d₂ : RowDict) (k : String)
    (h : dictGet d₁ k = none) : dictGet (d₁ ++ d₂) k = dictGet d₂ k := by
  induction d₁ with
  | nil => rfl
  | cons p rest ih =>
    obtain ⟨k', w⟩ := p
    by_cases hk : k' = k
    · simp only [dictGet, if_pos hk] at h
      exact absurd h (by simp)
    · simp only [dictGet, if_neg hk] at h ⊢
      exact ih h

theorem dictGet_map_ne (d : RowDict) (kv : String × Value) (k : String)
    (h : ¬ kv.1 = k) :
    dictGet (d.map (fun p => if p.1 = kv.1 then kv else p)) k = dictGet d k := by
  induction d with
  | nil => rfl
  | cons p rest ih =>
    obtain ⟨k', v⟩ := p
    simp only [List.map_cons]
    by_cases hk2 : k' = kv.1
    · rw [show (if ((k', v) : String × Value).1 = kv.1 then kv else (k', v)) = kv from
        by rw [if_pos hk2]]
      obtain ⟨ka, va⟩ := kv
      have hka : ¬ ka = k := h
      simp only [dictGet, if_neg hka, if_neg (show ¬ k' = k from by rw [hk2]; exact hka)]
      exact ih
    · rw [show (if ((k', v) : String × Value).1 = kv.1 then kv else (k', v)) = (k', v) from
        by rw [if_neg hk2]]
      by_cases hk : k' = k
      · simp only [dictGet, if_pos hk]
      · simp only [dictGet, if_neg hk]
        exact ih

theorem dictGet_updateOne_ne (d : RowDict) (kv : String × Value) (k : String)
    (h : ¬ kv.1 = k) : dictGet (updateOne d kv) k = dictGet d k := by
  unfold updateOne
  by_cases ha : d.any (fun p => p.1 == kv.1)
  · rw [if_pos ha]
    exact dictGet_map_ne d kv k h
  · rw [if_neg ha]
    cases hd : dictGet d k with
    | some v => exact dictGet_append_some d [kv] k v hd
    | none =>
      rw [dictGet_append_none d [kv] k hd]
      obtain ⟨ka, va⟩ := kv
      simp only [dictGet, if_neg (show ¬ ka = k from h)]

theorem dictGet_dictUpdate_ne (d : RowDict) (kvs : List (String × Value))
    (k : String) (h : ∀ kv ∈ kvs, ¬ kv.1 = k) :
    dictGet (dictUpdate d kvs) k = dictGet d k := by
  induction kvs generalizing d with
  | nil => rfl
  | cons kv rest ih =>
    show dictGet (dictUpdate (updateOne d kv) rest) k = _
    rw [ih (updateOne d kv) (fun kv' h' => h kv' (List.mem_cons_of_mem _ h')),
      dictGet_updateOne_ne d kv k (h kv (List.mem_cons_self _ _))]

theorem dictGet_model_common (v0 v1 v2 v3 v4 v5 : Value) :
    dictGet (dictUpdate [] (commonColumns.zip [v0, v1, v2, v3, v4, v5])) "Model" =
      some v0 := rfl

theorem timeLegend_length (dt : String) :
    (timeLegend dt).length = 9 + dt.length := by
  unfold timeLegend
  rw [String.length_append]
  rfl

theorem memLegend_length (dt : String) :
    (memLegend dt).length = 11 + dt.length := by
  unfold memLegend
  rw [String.length_append]
  rfl

theorem model_notin_drop (dts : List String) (n : Nat) (s : String)
    (hs : s ∈ (dfColumns dts).drop (commonColumns.length + n)) : s ≠ "Model" := by
  have hdrop : (dfColumns dts).drop (commonColumns.length + n) =
      (dts.flatMap (fun dt => [timeLegend dt, memLegend dt])).drop n := by
    unfold dfColumns
    rw [List.drop_append]
  rw [hdrop] at hs
  have hs2 := List.mem_of_mem_drop hs
  rw [List.mem_flatMap] at hs2
  obtain ⟨dt, _, hmem⟩ := hs2
  intro contra
  subst contra
  simp only [List.mem_cons, List.not_mem_nil, or_false] at hmem
  rcases hmem with h1 | h1
  · have hl := congrArg String.length h1
    rw [timeLegend_length] at hl
    have h5 : String.length "Model" = 5 := rfl
    rw [h5] at hl
    omega
  · have hl := congrArg String.length h1
    rw [memLegend_length] at hl
    have h5 : String.length "Model" = 5 := rfl
    rw [h5] at hl
    omega

theorem trialCells_model_key (args : BenchArgs) (env : SweepEnv) (isz : Int × Int)
    (mname : String) (idtype : Nat) (dt : String) (dict d : RowDict)
    (hok : trialCells args env isz mname idtype dt dict = .ok d)
    (hinv : dict = [] ∨ dictGet dict "Model" = some (Value.str mname)) :
    dictGet d "Model" = some (Value.str mname) := by
  unfold trialCells at hok
  split at hok
  · exact absurd hok (by simp)
  split at hok
  · exact absurd hok (by simp)
  split at hok
  · exact absurd hok (by simp)
  split at hok
  · exact absurd hok (by simp)
  split at hok
  · exact absurd hok (by simp)
  split at hok
  · exact absurd hok (by simp)
  rename_i m flops final_times final_memories ftime fmem
  simp only [Except.ok.injEq] at hok
  subst hok
  rw [dictGet_dictUpdate_ne]
  · by_cases hd : dict.length = 0
    · rw [if_pos hd]
      rw [List.length_eq_zero.mp hd]
      exact dictGet_model_common (Value.str mname) _ _ _ _ _
    · rw [if_neg hd]
      rcases hinv with hinv | hinv
      · exact absurd (by rw [hinv]; rfl) hd
      · exact hinv
  · intro kv hkv
    obtain ⟨ka, va⟩ := kv
    have hka : ka ∈ ((dfColumns args.datatypes).drop
        (NUM_COMMON_COLUMNS + 2 * idtype)).take 2 :=
      (List.of_mem_zip hkv).1
    exact model_notin_drop args.datatypes (2 * idtype) ka
      (List.mem_of_mem_take hka)

theorem processDtype_foldl_model_key (args : BenchArgs) (env : SweepEnv)
    (isz : Int × Int) (mname : String) (ps : List (Nat × String))
    (acc : RowDict × List Warning)
    (hinv : acc.1 = [] ∨ dictGet acc.1 "Model" = some (Value.str mname)) :
    (ps.foldl (processDtype args env isz mname) acc).1 = [] ∨
      dictGet (ps.foldl (processDtype args env isz mname) acc).1 "Model" =
        some (Value.str mname) := by
  induction ps generalizing acc with
  | nil => exact hinv
  | cons p rest ih =>
    rw [List.foldl_cons]
    apply ih
    unfold processDtype
    cases h : trialCells args env isz mname p.1 p.2 acc.1 with
    | error e => exact hinv
    | ok d => exact Or.inr (trialCells_model_key args env isz mname p.1 p.2 acc.1 d h hinv)

theorem processModel_rows_eq (args : BenchArgs) (env : SweepEnv)
    (excl : List String) (isz : Int × Int) (mname : String) :
    (processModel args env excl isz mname).rows =
      if mname ∈ excl then []
      else if 0 < ((args.datatypes.enum).foldl
          (processDtype args env isz mname) ([], [])).1.length
        then [((args.datatypes.enum).foldl
          (processDtype args env isz mname) ([], [])).1]
        else [] := by
  unfold processModel
  split
  · rfl
  · rfl

theorem processModel_rows_model (args : BenchArgs) (env : SweepEnv)
    (excl : List String) (isz : Int × Int) (mname : String) (r : RowDict)
    (hr : r ∈ (processModel args env excl isz mname).rows) :
    dictGet r "Model" = some (Value.str mname) ∧ mname ∉ excl := by
  rw [processModel_rows_eq] at hr
  by_cases hm : mname ∈ excl
  · rw [if_pos hm] at hr
    exact absurd hr (by simp)
  · rw [if_neg hm] at hr
    refine ⟨?_, hm⟩
    have hinv := processDtype_foldl_model_key args env isz mname
      (args.datatypes.enum) ([], []) (Or.inl rfl)
    by_cases hlen :
        0 < ((args.datatypes.enum).foldl (processDtype args env isz mname) ([], [])).1.length
    · rw [if_pos hlen] at hr
      simp only [List.mem_singleton] at hr
      subst hr
      rcases hinv with hinv | hinv
      · rw [hinv] at hlen
        exact absurd hlen (by simp)
      · exact hinv
    · rw [if_neg hlen] at hr
      exact absurd hr (by simp)

theorem processModel_events_eq (args : BenchArgs) (env : SweepEnv)
    (excl : List String) (isz : Int × Int) (mname : String) :
    (processModel args env excl isz mname).events =
      if mname ∈ excl then []
      else args.datatypes.map (fun dt => ⟨isz, mname, dt⟩) := by
  unfold processModel
  split <;> rfl

theorem names_foldl_spec (args : BenchArgs) (env : SweepEnv) (excl : List String)
    (isz : Int × Int) (names : List String) (acc : SweepResult) :
    names.foldl
      (fun acc2 mname =>
        let r := processModel args env excl isz mname
        ⟨acc2.rows ++ r.rows, acc2.warns ++ r.warns, acc2.events ++ r.events⟩)
      acc
    = ⟨acc.rows ++ names.flatMap (fun m => (processModel args env excl isz m).rows),
       acc.warns ++ names.flatMap (fun m => (processModel args env excl isz m).warns),
       acc.events ++ names.flatMap (fun m => (processModel args env excl isz m).events)⟩ := by
  induction names generalizing acc with
  | nil => cases acc; simp
  | cons m rest ih =>
    rw [List.foldl_cons, ih]
    cases acc
    simp [List.flatMap_cons, List.append_assoc]

theorem sweep_foldl_spec (args : BenchArgs) (env : SweepEnv) (excl : List String)
    (names : List String) (groups : List (Int × Int)) (acc : SweepResult) :
    groups.foldl
      (fun acc isz =>
        names.foldl
          (fun acc2 mname =>
            let r := processModel args env excl isz mname
            ⟨acc2.rows ++ r.rows, acc2.warns ++ r.warns, acc2.events ++ r.events⟩)
          acc)
      acc
    = ⟨acc.rows ++ groups.flatMap (fun isz =>
          names.flatMap (fun m => (processModel args env excl isz m).rows)),
       acc.warns ++ groups.flatMap (fun isz =>
          names.flatMap (fun m => (processModel args env excl isz m).warns)),
       acc.events ++ groups.flatMap (fun isz =>
          names.flatMap (fun m => (processModel args env excl isz m).events))⟩ := by
  induction groups generalizing acc with
  | nil => cases acc; simp
  | cons g rest ih =>
    rw [List.foldl_cons, names_foldl_spec, ih]
    cases acc
    simp [List.flatMap_cons, List.append_assoc]

theorem benchmarkRun_some_spec (args : BenchArgs) (av : List String)
    (env : SweepEnv) (res : SweepResult)
    (h : benchmarkRun args av env = some res) :
    ∃ names excl, modelNamesOf args av = some names
      ∧ excludeOf args av = some excl
      ∧ args.input_size.length % 2 = 0
      ∧ res.rows = (pairUp args.input_size).flatMap (fun isz =>
          names.flatMap (fun m => (processModel args env excl isz m).rows))
      ∧ res.events = (pairUp args.input_size).flatMap (fun isz =>
          names.flatMap (fun m => (processModel args env excl isz m).events)) := by
  rcases hn : modelNamesOf args av with _ | names
  · exfalso
    unfold benchmarkRun at h
    rw [hn] at h
    simp at h
  · rcases he : excludeOf args av with _ | excl
    · exfalso
      unfold benchmarkRun at h
      rw [hn, he] at h
      simp at h
    · by_cases hp : args.input_size.length % 2 = 0
      · have hb : benchmarkRun args av env = some
            ⟨(pairUp args.input_size).flatMap (fun isz =>
                names.flatMap (fun m => (processModel args env excl isz m).rows)),
             (pairUp args.input_size).flatMap (fun isz =>
                names.flatMap (fun m => (processModel args env excl isz m).warns)),
             (pairUp args.input_size).flatMap (fun isz =>
                names.flatMap (fun m => (processModel args env excl isz m).events))⟩ := by
          unfold benchmarkRun
          rw [hn, he]
          simp only [Option.some_bind]
          rw [if_pos hp, sweep_foldl_spec]
          simp
        rw [hb] at h
        have h2 := Option.some.inj h
        refine ⟨names, excl, rfl, rfl, hp, ?_, ?_⟩ <;> rw [← h2]
      · exfalso
        unfold benchmarkRun at h
        rw [hn, he] at h
        simp only [Option.some_bind] at h
        rw [if_neg hp] at h
        exact Option.noConfusion h

theorem benchmarkRun_events_mem (args : BenchArgs) (av : List String)
    (env : SweepEnv) (res : SweepResult) (ev : TrialEvent)
    (h : benchmarkRun args av env = some res) (hev : ev ∈ res.events) :
    ∃ names excl, modelNamesOf args av = some names
      ∧ excludeOf args av = some excl
      ∧ ev.isz ∈ pairUp args.input_size ∧ ev.mname ∈ names ∧ ev.mname ∉ excl
      ∧ ev.dtype ∈ args.datatypes := by
  obtain ⟨names, excl, hn, he, _, _, hevents⟩ :=
    benchmarkRun_some_spec args av env res h
  rw [hevents, List.mem_flatMap] at hev
  obtain ⟨isz, hisz, hev⟩ := hev
  rw [List.mem_flatMap] at hev
  obtain ⟨m, hm, hev⟩ := hev
  rw [processModel_events_eq] at hev
  by_cases hmx : m ∈ excl
  · rw [if_pos hmx] at hev
    exact absurd hev (by simp)
  · rw [if_neg hmx, List.mem_map] at hev
    obtain ⟨dt, hdtm, hevEq⟩ := hev
    subst hevEq
    exact ⟨names, excl, hn, he, hisz, hm, hmx, hdtm⟩

theorem benchmarkRun_rows_mem (args : BenchArgs) (av : List String)
    (env : SweepEnv) (res : SweepResult) (r : RowDict)
    (h : benchmarkRun args av env = some res) (hr : r ∈ res.rows) :
    ∃ names excl m, modelNamesOf args av = some names
      ∧ excludeOf args av = some excl
      ∧ m ∈ names ∧ m ∉ excl ∧ dictGet r "Model" = some (Value.str m) := by
  obtain ⟨names, excl, hn, he, _, hrows, _⟩ :=
    benchmarkRun_some_spec args av env res h
  rw [hrows, List.mem_flatMap] at hr
  obtain ⟨isz, _, hr⟩ := hr
  rw [List.mem_flatMap] at hr
  obtain ⟨m, hm, hr⟩ := hr
  obtain ⟨hmodel, hnx⟩ := processModel_rows_model args env excl isz m r hr
  exact ⟨names, excl, m, hn, he, hm, hnx, hmodel⟩

theorem excludeOf_mem (args : BenchArgs) (av : List String) (excl : List String)
    (mname : String) (he : excludeOf args av = some excl)
    (hexc : mname ∈ args.exclude.getD []) : mname ∈ excl := by
  unfold excludeOf at he
  cases hx : args.exclude with
  | none =>
    rw [hx] at hexc
    exact absurd hexc (by simp)
  | some ex =>
    rw [hx] at he hexc
    simp only [Option.getD_some] at hexc
    have he2 : (if ex.all (fun n => av.contains n) then some ex else none) =
        some excl := he
    by_cases hall : ex.all (fun n => av.contains n)
    · rw [if_pos hall] at he2
      rw [← Option.some.inj he2]
      exact hexc
    · rw [if_neg hall] at he2
      exact absurd he2 (by simp)

/-- C4: if the fp16 trial of a model raises and the fp32 trial succeeds,
the per-model sweep body logs a warning naming the model and the fp16
precision, leaves the fp16 time/memory cells absent from the row, and
still records the fp32 time/memory cells (and the common descriptive
cells) in the same emitted row. -/
theorem claim_C4_theorem (args : BenchArgs) (env : SweepEnv) (excl : List String)
    (isz : Int × Int) (mname e : String) (m : TrialState) (ops : List Int)
    (hdt : args.datatypes = ["fp16", "fp32"])
    (hex : mname ∉ excl)
    (h16 : env.trial isz mname "fp16" = .error e)
    (h32 : env.trial isz mname "fp32" = .ok m)
    (hops : env.flopsOps (flops_input_shape args isz) mname "fp32" = .ok ops)
    (ht : m.all_times ≠ [])
    (hsm : args.final_speed_mode ∈ ["avg", "median", "perc1", "perc5", "perc10"])
    (hmem_mode : args.final_memory_mode ∈
      ["avg", "median", "perc1", "perc5", "perc10", "first"]) :
    ∃ (row : RowDict) (t v : ℚ),
      processModel args env excl isz mname =
        ⟨[row], [⟨mname, "fp16", e⟩], [⟨isz, mname, "fp16"⟩, ⟨isz, mname, "fp32"⟩]⟩
      ∧ dictGet row (timeLegend "fp16") = none
      ∧ dictGet row (memLegend "fp16") = none
      ∧ dictGet row (timeLegend "fp32") = some (Value.num t)
      ∧ dictGet row (memLegend "fp32") = some (Value.num v)
      ∧ dictGet row "Model" = some (Value.str mname) := by
  have hmemne : List.map (fun x : Int => (x : ℚ))
      (if m.all_memories.isEmpty then [0] else m.all_memories) ≠ [] := by
    cases hmm2 : m.all_memories with
    | nil => simp [hmm2]
    | cons a tl => simp [hmm2]
  obtain ⟨rt, hrt, _, _, _, _, _⟩ := computeReductions_spec m.all_times ht
  obtain ⟨rm, hrm, _, _, _, _, _⟩ := computeReductions_spec _ hmemne
  obtain ⟨ft, hft⟩ := selectFinalTime_some rt args.final_speed_mode hsm
  obtain ⟨fm, hfm⟩ := selectFinalMemory_some rm (m.first_memory_used : ℚ)
    args.final_memory_mode hmem_mode
  have hflops : trial_flops args env isz mname "fp32" = .ok (count_flops ops) := by
    unfold trial_flops
    rw [hops]
    rfl
  have hcells16 : trialCells args env isz mname 0 "fp16" [] = .error e := by
    unfold trialCells
    rw [h16]
  have hcells32 : trialCells args env isz mname 1 "fp32" [] = .ok
      [("Model", Value.str mname),
       ("Params", Value.num ((m.model_params : ℚ) / 1000000)),
       ("FLOPs", Value.num ((count_flops ops : ℚ) / 1000000000)),
       ("InputH", Value.int isz.1),
       ("InputW", Value.int isz.2),
       ("InputPx", Value.int (isz.1 * isz.2)),
       ("Time(ms)-fp32", Value.num (ft * 1000)),
       ("Memory(GB)-fp32", Value.num (fm / GB))] := by
    simp only [trialCells, h32, hflops, hrt, hrm, hft, hfm, hdt]
    rfl
  refine ⟨[("Model", Value.str mname),
       ("Params", Value.num ((m.model_params : ℚ) / 1000000)),
       ("FLOPs", Value.num ((count_flops ops : ℚ) / 1000000000)),
       ("InputH", Value.int isz.1),
       ("InputW", Value.int isz.2),
       ("InputPx", Value.int (isz.1 * isz.2)),
       ("Time(ms)-fp32", Value.num (ft * 1000)),
       ("Memory(GB)-fp32", Value.num (fm / GB))],
    ft * 1000, fm / GB, ?_, rfl, rfl, rfl, rfl, rfl⟩
  have e1 : processDtype args env isz mname ([], []) (0, "fp16") =
      ([], [⟨mname, "fp16", e⟩]) := by
    unfold processDtype
    rw [hcells16]
    rfl
  have e2 : processDtype args env isz mname ([], [⟨mname, "fp16", e⟩]) (1, "fp32") =
      ([("Model", Value.str mname),
        ("Params", Value.num ((m.model_params : ℚ) / 1000000)),
        ("FLOPs", Value.num ((count_flops ops : ℚ) / 1000000000)),
        ("InputH", Value.int isz.1),
        ("InputW", Value.int isz.2),
        ("InputPx", Value.int (isz.1 * isz.2)),
        ("Time(ms)-fp32", Value.num (ft * 1000)),
        ("Memory(GB)-fp32", Value.num (fm / GB))], [⟨mname, "fp16", e⟩]) := by
    unfold processDtype
    rw [hcells32]
  unfold processModel
  rw [if_neg hex, hdt]
  rw [show List.enum ["fp16", "fp32"] = [(0, "fp16"), (1, "fp32")] from rfl]
  rw [List.foldl_cons, e1, List.foldl_cons, e2, List.foldl_nil]
  rfl

theorem claim_C4_witness :
    ∃ (row : RowDict) (t v : ℚ),
      processModel exArgsBoth exEnvSplit [] (100, 200) "x" =
        ⟨[row], [⟨"x", "fp16", "E16"⟩],
         [⟨(100, 200), "x", "fp16"⟩, ⟨(100, 200), "x", "fp32"⟩]⟩
      ∧ dictGet row (timeLegend "fp16") = none
      ∧ dictGet row (memLegend "fp16") = none
      ∧ dictGet row (timeLegend "fp32") = some (Value.num t)
      ∧ dictGet row (memLegend "fp32") = some (Value.num v)
      ∧ dictGet row "Model" = some (Value.str "x") :=
  claim_C4_theorem exArgsBoth exEnvSplit [] (100, 200) "x" "E16"
    ⟨[2], [3], 7, 1000⟩ [5, 6] rfl (by decide) rfl rfl rfl (by decide)
    (by decide) (by decide)

/-- C5: an odd-length input-size list makes the sweep fail its assertion
before any trial runs; an even list of 2k values is consumed pairwise in
order into exactly k (height, width) groups; for [100, 200, 300, 400] the
groups are exactly (100, 200) and (300, 400), and every executed trial
belongs to one of them. -/
theorem claim_C5_theorem :
    (∀ (args : BenchArgs) (av : List String) (env : SweepEnv),
        args.input_size.length % 2 = 1 → benchmarkRun args av env = none)
    ∧ (∀ (a b : Int) (rest : List Int),
        pairUp (a :: b :: rest) = (a, b) :: pairUp rest)
    ∧ (∀ (l : List Int) (k : Nat), l.length = 2 * k → (pairUp l).length = k)
    ∧ pairUp [100, 200, 300, 400] = [(100, 200), (300, 400)]
    ∧ (∀ (args : BenchArgs) (av : List String) (env : SweepEnv)
        (res : SweepResult),
        args.input_size = [100, 200, 300, 400] →
        benchmarkRun args av env = some res →
        ∀ ev ∈ res.events, ev.isz = (100, 200) ∨ ev.isz = (300, 400)) := by
  refine ⟨?_, fun a b rest => rfl, ?_, rfl, ?_⟩
  · intro args av env hodd
    unfold benchmarkRun
    cases modelNamesOf args av with
    | none => rfl
    | some names =>
      cases excludeOf args av with
      | none => rfl
      | some excl =>
        simp only [Option.some_bind]
        rw [if_neg (by omega)]
  · intro l k
    induction k generalizing l with
    | zero =>
      intro hl
      rw [List.length_eq_zero.mp (by omega : l.length = 0)]
      rfl
    | succ kk ih =>
      intro hl
      rcases l with _ | ⟨a, rest1⟩
      · simp only [List.length_nil] at hl
        omega
      rcases rest1 with _ | ⟨b, rest⟩
      · simp only [List.length_cons, List.length_nil] at hl
        omega
      have hrest : rest.length = 2 * kk := by
        simp only [List.length_cons] at hl
        omega
      show ((a, b) :: pairUp rest).length = kk + 1
      simp only [List.length_cons]
      rw [ih rest hrest]
  · intro args av env res hin hrun ev hev
    obtain ⟨names, excl, _, _, hisz, _, _, _⟩ :=
      benchmarkRun_events_mem args av env res ev hrun hev
    rw [hin] at hisz
    rw [show pairUp [100, 200, 300, 400] = [(100, 200), (300, 400)] from rfl] at hisz
    simp only [List.mem_cons, List.not_mem_nil, or_false] at hisz
    exact hisz

theorem claim_C5_witness :
    benchmarkRun exArgsOdd ["x"] exEnvErr = none
    ∧ (pairUp [100, 200, 300, 400]).length = 2
    ∧ (TrialEvent.isz ⟨(100, 200), "x", "fp32"⟩ = (100, 200)
        ∨ TrialEvent.isz ⟨(100, 200), "x", "fp32"⟩ = (300, 400)) :=
  ⟨claim_C5_theorem.1 exArgsOdd ["x"] exEnvErr (by decide),
   claim_C5_theorem.2.2.1 [100, 200, 300, 400] 2 (by decide),
   claim_C5_theorem.2.2.2.2 exArgsFour ["x"] exEnvErr exResFour rfl (by rfl)
     ⟨(100, 200), "x", "fp32"⟩ (by decide)⟩

/-- C8: a model name appearing in both the selection and the exclusion
lists is skipped entirely by the sweep: no trial is attempted for it and
no emitted row carries it as its Model cell, at every input size and
precision. -/
theorem claim_C8_theorem (args : BenchArgs) (av : List String) (env : SweepEnv)
    (res : SweepResult) (mname : String)
    (hrun : benchmarkRun args av env = some res)
    (hsel : mname ∈ args.select.getD [])
    (hexc : mname ∈ args.exclude.getD []) :
    (∀ ev ∈ res.events, ev.mname ≠ mname)
    ∧ (∀ r ∈ res.rows, dictGet r "Model" ≠ some (Value.str mname)) := by
  constructor
  · intro ev hev
    obtain ⟨names, excl, hn, he, _, _, hnx, _⟩ :=
      benchmarkRun_events_mem args av env res ev hrun hev
    intro contra
    exact hnx (contra ▸ excludeOf_mem args av excl mname he hexc)
  · intro r hr
    obtain ⟨names, excl, mother, hn, he, _, hnx, hmodel⟩ :=
      benchmarkRun_rows_mem args av env res r hrun hr
    intro contra
    rw [hmodel] at contra
    have hmo : mother = mname := Value.str.inj (Option.some.inj contra)
    subst hmo
    exact hnx (excludeOf_mem args av excl mother he hexc)

theorem claim_C8_witness :
    TrialEvent.mname ⟨(100, 200), "dummy_b", "fp32"⟩ ≠ "dummy_a" :=
  (claim_C8_theorem exArgsSelect ["dummy_a", "dummy_b"] exEnvErr exResSelect
      "dummy_a" (by rfl) (by decide) (by decide)).1
    ⟨(100, 200), "dummy_b", "fp32"⟩ (by decide)

end ModelBenchmark

namespace ScopeFlowModel

/-- C9: the occlusion refinement helper returns a 4-tuple whose second and
fourth components are both the forward continuation `occ_cont_f`; the
backward continuation `occ_cont_b` it received is never returned (varying
it cannot change those components). -/
theorem claim_C9_theorem {V : Type} (M : ScopeFlowRefinement V) (div_flow : ℚ)
    (x1_1by1 x2_1by1 flow_f flow_b occ_cont_f occ_cont_b : V)
    (height_im width_im : Int) :
    (refine_occ_method M div_flow x1_1by1 x2_1by1 flow_f flow_b occ_cont_f
        occ_cont_b height_im width_im).2.1 = occ_cont_f
    ∧ (refine_occ_method M div_flow x1_1by1 x2_1by1 flow_f flow_b occ_cont_f
        occ_cont_b height_im width_im).2.2.2 = occ_cont_f
    ∧ ∀ occ_cont_b2 : V,
        (refine_occ_method M div_flow x1_1by1 x2_1by1 flow_f flow_b occ_cont_f
            occ_cont_b2 height_im width_im).2.1 =
          (refine_occ_method M div_flow x1_1by1 x2_1by1 flow_f flow_b occ_cont_f
            occ_cont_b height_im width_im).2.1
        ∧ (refine_occ_method M div_flow x1_1by1 x2_1by1 flow_f flow_b occ_cont_f
            occ_cont_b2 height_im width_im).2.2.2 =
          (refine_occ_method M div_flow x1_1by1 x2_1by1 flow_f flow_b occ_cont_f
            occ_cont_b height_im width_im).2.2.2 :=
  ⟨rfl, rfl, fun _ => ⟨rfl, rfl⟩⟩

end ScopeFlowModel
